import Mathlib

/-!
Verification of the plan-execute-summarize control loop of the medicine
RAG agent (`src/agent/agent.py`) and of its retrieval tool
`recommend_alternatives` (`src/agent/tools.py`).

The Python code is shallowly embedded: the LLM, the Neo4j graph store,
the Qdrant vector store and the `json` standard library are external
collaborators and are modelled as function parameters; everything with
decision logic (plan parsing, the executor state machine, the forced-stop
check, the scoring of `recommend_alternatives`) is translated directly
from the source.  A Python exception is modelled as `Except.error`.
-/

deriving instance DecidableEq for Except

namespace MedicineAgent

/-! ### Models of the Python `str` operations used by the agent -/

/-- Model of Python `pat in s` (substring containment) on character lists. -/
def subIn (pat : List Char) : List Char → Bool
  | [] => pat.isEmpty
  | c :: rest => pat.isPrefixOf (c :: rest) || subIn pat rest

/-- Model of Python `pat in s` on strings. -/
def pyIn (pat s : String) : Bool := subIn pat.data s.data

/-- Model of Python `s.split(sep)` for a one-character separator:
keeps empty fields, `"".split(sep) == [""]`. -/
def splitOnChar (sep : Char) (l : List Char) : List (List Char) :=
  l.foldr
    (fun ch acc =>
      if ch = sep then [] :: acc
      else
        match acc with
        | [] => [[ch]]
        | grp :: rest => (ch :: grp) :: rest)
    [[]]

/-- Model of Python `s.split(sep)` on strings (one-character separator). -/
def pySplit (sep : Char) (s : String) : List String :=
  (splitOnChar sep s.data).map String.mk

/-- Model of Python `s.replace(old, new)` (all non-overlapping occurrences,
left to right); structural recursion on an explicit fuel equal to the
length of the scanned list. -/
def replaceAux (old new : List Char) : Nat → List Char → List Char
  | _, [] => []
  | 0, l => l
  | fuel + 1, c :: rest =>
    if !old.isEmpty && old.isPrefixOf (c :: rest) then
      new ++ replaceAux old new fuel (rest.drop (old.length - 1))
    else
      c :: replaceAux old new fuel rest

/-- Model of Python `s.replace(old, new)` on strings. -/
def pyReplace (old new s : String) : String :=
  String.mk (replaceAux old.data new.data s.data.length s.data)

/-- Model of Python `s.strip()` (drop whitespace at both ends). -/
def pyStrip (s : String) : String :=
  String.mk (((s.data.dropWhile Char.isWhitespace).reverse.dropWhile Char.isWhitespace).reverse)

/-- Model of Python `sep.join(parts)`. -/
def joinSep (sep : String) : List String → String
  | [] => ""
  | [x] => x
  | x :: y :: rest => x ++ sep ++ joinSep sep (y :: rest)

/-! ### Data model of the agent (`src/agent/agent.py`) -/

/-- One entry of the `ConversationBufferMemory` chat log; `type` is the
LangChain message type string (`"human"` or `"ai"`). -/
structure Message where
  type : String
  content : String
deriving DecidableEq, Repr

/-- One step of the plan built by the Planner: `tool` and `query`. -/
structure PlanStep where
  tool : String
  query : String
deriving DecidableEq, Repr

/-- One entry of the per-turn results buffer:
`{"tool": ..., "query": ..., "result": ...}`. -/
structure ToolResult where
  tool : String
  query : String
  result : String
deriving DecidableEq, Repr

/-- The LangGraph state dict threaded through Planner, Executor and
Summarizer.  Keys that the Planner leaves absent (`done`, `force_end`,
`final_answer`) are modelled by the same defaults the code reads back
with `state.get`. -/
structure AgentState where
  question : String
  chat_history : List Message
  plan : List PlanStep
  results : List ToolResult
  current_index : Nat
  done : Bool
  force_end : Bool
  final_answer : Option String
deriving DecidableEq, Repr

/-- A Python value passed to `tool.run`: either a plain query string or,
for `recommend_by_indications`, the decoded list of indication strings. -/
inductive PyArg where
  | str (s : String)
  | list (l : List String)
deriving DecidableEq, Repr

/-- A registered tool: a call into an external store that either returns
text or raises (`Except.error`). -/
def ToolFn : Type := PyArg → Except String String

/-- The `self.tools` registry: a name-to-callable mapping;
`none` models a dictionary miss of `self.tools.get`. -/
def ToolReg : Type := String → Option ToolFn

/-- Model of the registry literal `self.tools = {...}` built in
`RAGAgentSystem.__init__`, keyed by the four fixed tool names. -/
def mkTools (f1 f2 f3 f4 : ToolFn) : ToolReg := fun name =>
  if name = "search_by_name" then some f1
  else if name = "search_by_query" then some f2
  else if name = "recommend_alternatives" then some f3
  else if name = "recommend_by_indications" then some f4
  else none

/-- Model of Python `json.loads` specialised to a JSON array of strings
(the only shape the Executor decodes); an `Except.error` models a raised
`JSONDecodeError`.  The decoder itself is an external collaborator
(`json` stdlib), so it is a parameter everywhere. -/
def JsonLoads : Type := String → Except String (List String)

/-! ### Planner (`_planner_node`) -/

/-- `list(self.tools.keys())` in registry insertion order. -/
def allowed_tools : List String :=
  ["search_by_name", "search_by_query", "recommend_alternatives", "recommend_by_indications"]

/-- The `tool_list_str` bullet list embedded in the planner prompt. -/
def tool_list_str : String :=
  joinSep "\n" (allowed_tools.map (fun t => "- " ++ t))

/-- The `history_str` role-tagged rendering of the chat history. -/
def history_to_str (chat_history : List Message) : String :=
  joinSep "\n" (chat_history.map (fun m => m.type ++ ": " ++ m.content))

/-- The planner instruction f-string of `_planner_node`, with the
history, question and tool list interpolated. -/
def planner_prompt (question : String) (chat_history : List Message) : String :=
  let history_str := history_to_str chat_history
  "\n            \n---\n\n            History:\n            " ++ history_str ++
  "\n\n            Question:\n            " ++ question ++
  "\n\n            You are an intelligent planning agent that creates execution plans using the following tools only:\n\n            " ++ tool_list_str ++
  "     \n\n            Mandatory Constraints (strictly follow):\n" ++
  "                - For each user intent or sub-question, you MUST select only one appropriate tool.\n" ++
  "                - Do NOT use multiple tools for the same purpose or for overlapping queries.\n" ++
  "                - You MUST NOT use both \"search_by_name\" and \"search_by_query\" for the same medicine unless the user explicitly asks for two clearly different pieces of information (e.g., both description and usage).\n" ++
  "                - Each tool\x27s usage must be fully justified based on its described purpose above.\n" ++
  "                - All planned queries must strictly reflect the content and meaning of the user’s original question — NO assumptions or invented sub-questions are allowed.\n" ++
  "                - All queries must be written in **Vietnamese**.\n" ++
  "                - Medicine names (if used) must be a **single word only** (no compound names).\n" ++
  "                - When using tool `recommend_by_indications`, extract all relevant symptoms or indications from the user question and pass them as a **list** of strings.\n" ++
  "\n                - You can use a maximum of 2 tools in total per user query.\n" ++
  "\n            Output format (strictly follow this format — one tool per line):\n" ++
  "            Tool: <tool_name> | Query: <query_content>\n            \n" ++
  "            For tool `recommend_by_indications`, <query_content> must be a **JSON list** of strings representing symptoms or indications.\n" ++
  "\n            If none of the tools are suitable for the user question, return nothing.\n" ++
  "\n            Examples:\n" ++
  "\n            Question: Thuốc Paracetamol có giá bao nhiêu?\n" ++
  "            Tool: search_by_name| Query: Paracetamol\n" ++
  "\n            Question: Loại thuốc tương tự thuốc Naname?\n" ++
  "            Tool: recommend_alternatives| Query: Naname\n" ++
  "\n            Question: Cách sử dụng thuốc Panadol?\n" ++
  "            Tool: search_by_query| Query: Cách sử dụng thuốc Panadol?\n" ++
  "\n            Question: Tôi bị sốt và đau đầu, nên uống thuốc gì?\n" ++
  "            Tool: recommend_by_indications| Query: [\"sốt\", \"đau đầu\"]\n" ++
  "\n            Now, carefully plan your subqueries:\n                    ...\n            "

/-- The plan-parsing loop of `_planner_node`: scan the response line by
line; a line both containing `Tool:` and `Query:` contributes a step,
whose fields come from the first pipe-separated part containing each
marker, with the marker removed and whitespace stripped. -/
def parse_plan (response : String) : List PlanStep :=
  (pySplit '\n' response).foldl
    (fun plan line =>
      if pyIn "Tool:" line && pyIn "Query:" line then
        let parts := pySplit '|' line
        let tool_part := (parts.filter (fun p => pyIn "Tool:" p)).headD ""
        let query_part := (parts.filter (fun p => pyIn "Query:" p)).headD ""
        let tool_name := pyStrip (pyReplace "Tool:" "" tool_part)
        let query := pyStrip (pyReplace "Query:" "" query_part)
        plan ++ [⟨tool_name, query⟩]
      else plan)
    []

/-- Whether a line of the planner response contributes a plan step. -/
def line_qualifies (line : String) : Bool :=
  pyIn "Tool:" line && pyIn "Query:" line

/-- The step extracted from a qualifying line of the planner response. -/
def line_step (line : String) : PlanStep :=
  let parts := pySplit '|' line
  let tool_part := (parts.filter (fun p => pyIn "Tool:" p)).headD ""
  let query_part := (parts.filter (fun p => pyIn "Query:" p)).headD ""
  ⟨pyStrip (pyReplace "Tool:" "" tool_part), pyStrip (pyReplace "Query:" "" query_part)⟩

/-- `_planner_node`: call the language capability on the planner prompt,
parse the plan, and initialise `results` and `current_index`.  The
capability is the oracle `llm`. -/
def planner_node (llm : String → String) (question : String)
    (chat_history : List Message) : AgentState :=
  let response := llm (planner_prompt question chat_history)
  { question := question
    chat_history := chat_history
    plan := parse_plan response
    results := []
    current_index := 0
    done := false
    force_end := false
    final_answer := none }

/-! ### Executor (`_executor_node`) and the LangGraph control loop -/

/-- The synthetic result text `Tool ... không tồn tại.` recorded for a
registry miss (the f-string of the registry-miss branch). -/
def not_found_msg (tool_name : String) : String :=
  "Tool \x27" ++ tool_name ++ "\x27 không tồn tại."

/-- The fixed fallback answer set by the forced-stop check. -/
def fallback_answer : String := "Không tìm được dữ liệu hữu ích sau 3 lần thử."

/-- The tail of `_executor_node` once the result text of a step exists:
append the `ToolResult`, advance the cursor, and evaluate the 3-attempt
forced-stop check over the (just extended) results buffer. -/
def executor_finish (s : AgentState) (tool_name query result : String) : AgentState :=
  let results := s.results ++ [⟨tool_name, query, result⟩]
  let max_attempts := 3
  let forced : Bool × Option String :=
    if max_attempts ≤ s.current_index + 1 then
      if (results.filter (fun r => r.result != "")).isEmpty then
        (true, some fallback_answer)
      else (false, none)
    else (false, none)
  { s with
    results := results
    current_index := s.current_index + 1
    force_end := forced.1
    final_answer := forced.2 }

/-- `_executor_node`: run the step at `current_index` (or mark `done`
when the plan is exhausted), append its result, advance the cursor, and
evaluate the 3-attempt forced-stop check.  An uncaught Python exception
(tool raise or `json.loads` failure) is `Except.error`. -/
def executor_node (json_loads : JsonLoads) (tools : ToolReg)
    (s : AgentState) : Except String AgentState :=
  if s.plan.length ≤ s.current_index then
    .ok { s with done := true }
  else
    let step := s.plan.getD s.current_index ⟨"", ""⟩
    let tool_name := step.tool
    let query := step.query
    let result? : Except String String :=
      match tools tool_name with
      | none => .ok (not_found_msg tool_name)
      | some tool =>
        if tool_name = "recommend_by_indications" then
          (json_loads query).bind (fun inds => tool (.list inds))
        else
          tool (.str query)
    match result? with
    | .error e => .error e
    | .ok result => .ok (executor_finish s tool_name query result)

/-- `_should_continue`: loop back to the Executor unless `force_end` is
set or the plan is exhausted. -/
def should_continue (s : AgentState) : Bool :=
  if s.force_end then false
  else decide (s.current_index < s.plan.length)

/-- The conditional-edge loop `Executor -> Executor` of the compiled
graph, with fuel; each iteration runs only while `_should_continue`
holds, so with fuel `plan.length - current_index` the recursion is
exactly the while-loop (each executed step advances the cursor by one,
and once the fuel is spent the guard is false as well). -/
def loopN (json_loads : JsonLoads) (tools : ToolReg) :
    Nat → AgentState → Except String AgentState
  | 0, s => .ok s
  | fuel + 1, s =>
    if should_continue s then
      match executor_node json_loads tools s with
      | .error e => .error e
      | .ok s2 => loopN json_loads tools fuel s2
    else .ok s

/-- The `"\n".join(f"- {query}: {result}")` context of the summarizer. -/
def summarizer_context (results : List ToolResult) : String :=
  joinSep "\n" (results.map (fun r => "- " ++ r.query ++ ": " ++ r.result))

/-- The summarizer instruction f-string of `_summarizer_node`. -/
def summarizer_prompt (question : String) (chat_history : List Message)
    (results : List ToolResult) : String :=
  let context := summarizer_context results
  let history_str := history_to_str chat_history
  "You are an AI-powered assistant designed to answer user questions related to pharmaceuticals and medications using a Retrieval-Augmented Generation (RAG) system. You will receive retrieved information from a knowledge base that may or may not directly relate to the user\x27s question.\n" ++
  "\n        Your task is to carefully reason and synthesize an accurate response strictly based on the provided information.\n" ++
  "\n        If the retrieved information is not relevant or does not sufficiently answer the user’s question, you must politely inform the user that no relevant information is available to provide an accurate answer.\n" ++
  "\n        Do not make assumptions or generate answers beyond the scope of the retrieved data.\n" ++
  "\n\n        Finally, remind the user that the information you provide is for reference only and should not replace professional medical advice. Always advise consulting a qualified healthcare professional or doctor for personalized guidance. Answer that question in Vietnamese\"---\"\n" ++
  "            \n---\n\n            History: " ++ history_str ++
  "\n            \n---\n\n            Context: " ++ context ++
  "\n            \n---\n\n            Question: " ++ question ++
  "\n            Helpful Answer:\n            "

/-- `_summarizer_node`: call the capability on the summarizer prompt and
overwrite `final_answer` with its output. -/
def summarizer_node (llm : String → String) (s : AgentState) : AgentState :=
  { s with final_answer := some (llm (summarizer_prompt s.question s.chat_history s.results)) }

/-- The final state of one `graph.invoke`, together with how many times
the Summarizer node ran during the turn. -/
structure TurnResult where
  state : AgentState
  summarizer_calls : Nat
deriving DecidableEq, Repr

/-- The compiled graph of `_build_graph`: entry at the Planner output,
one unconditional `Planner -> Executor` edge, the conditional
`Executor -> Executor | Summarizer` edges, then `Summarizer -> END`.
Every successful invocation runs the Summarizer exactly once. -/
def run_graph (json_loads : JsonLoads) (tools : ToolReg) (llm : String → String)
    (s0 : AgentState) : Except String TurnResult :=
  match executor_node json_loads tools s0 with
  | .error e => .error e
  | .ok s1 =>
    match loopN json_loads tools (s1.plan.length - s1.current_index) s1 with
    | .error e => .error e
    | .ok s2 => .ok ⟨summarizer_node llm s2, 1⟩

/-- The answer string and the conversation memory after one turn. -/
structure RunResult where
  answer : String
  memory : List Message
deriving DecidableEq, Repr

/-- The tail of `RAGAgentSystem.run`: read `final_answer` with the
default `"Không có kết quả."` and append it to memory as the assistant
message; the same string is returned to the caller. -/
def finalize (memory1 : List Message) (result_state : AgentState) : RunResult :=
  let final_answer := result_state.final_answer.getD "Không có kết quả."
  ⟨final_answer, memory1 ++ [⟨"ai", final_answer⟩]⟩

/-- `RAGAgentSystem.run`: append the user message, invoke the graph on
`{question, chat_history}`, then append and return the final answer.
A raised exception aborts the turn before anything is appended as an
assistant message. -/
def run (json_loads : JsonLoads) (tools : ToolReg) (llm : String → String)
    (memory : List Message) (question : String) : Except String RunResult :=
  let memory1 := memory ++ [⟨"human", question⟩]
  let s0 := planner_node llm question memory1
  (run_graph json_loads tools llm s0).map (fun tr => finalize memory1 tr.state)

/-! ### `recommend_alternatives` (`src/agent/tools.py`) -/

/-- A graph node as returned by the Neo4j adapter: the `id`, `name` and
`metadata` properties of an `Entity` node (ids are UUID strings). -/
structure Med where
  id : String
  name : String
  metadata : String
deriving DecidableEq, Repr

/-- The `direction` keyword of `Neo4j.find_relations`. -/
inductive Direction where
  | out
  | inn
deriving DecidableEq, Repr

/-- The graph-store adapter consumed by `recommend_alternatives`
(`Neo4j.find_medicine_regex` with its `case_insensitive` flag, and
`Neo4j.find_relations` with a relation type and a direction).  The
actual Cypher execution lives in the external store, so the adapter is
abstract. -/
structure GraphSearcher where
  find_medicine_regex : String → Bool → List Med
  find_relations : String → String → Direction → List Med

/-- One row of the `scores` defaultdict in Python dict insertion order:
name, accumulated score, last-written metadata. -/
structure ScoreEntry where
  name : String
  score : Nat
  metadata : String
deriving DecidableEq, Repr

/-- The body of `scores[m["name"]][0] += 1; scores[m["name"]][1] = ...`:
a fresh name is appended with score 1; an existing entry is incremented
and its metadata overwritten. -/
def bumpScore (m : Med) : List ScoreEntry → List ScoreEntry
  | [] => [⟨m.name, 1, m.metadata⟩]
  | e :: rest =>
    if e.name = m.name then ⟨e.name, e.score + 1, m.metadata⟩ :: rest
    else e :: bumpScore m rest

/-- One iteration of the scoring loops: candidates equal to the target
medicine are skipped (`if m["id"] != medicine_id`). -/
def scoreStep (medicine_id : String) (acc : List ScoreEntry) (m : Med) : List ScoreEntry :=
  if m.id ≠ medicine_id then bumpScore m acc else acc

/-- One of the three `alts_* += searcher.find_relations(..., "in")`
accumulation loops, for a given relation type. -/
def alts_for (searcher : GraphSearcher) (rel : String) (nodes : List Med) : List Med :=
  nodes.foldl (fun acc t => acc ++ searcher.find_relations t.id rel .inn) []

/-- The `scores` dict of `recommend_alternatives` after the three
scoring loops, as an insertion-ordered association list. -/
def ra_scoreList (searcher : GraphSearcher) (medicine_id : String) : List ScoreEntry :=
  let types := searcher.find_relations medicine_id "LOẠI THUỐC" .out
  let inds := searcher.find_relations medicine_id "CHỈ ĐỊNH" .out
  let ingres := searcher.find_relations medicine_id "THÀNH PHẦN" .out
  let alts_type := alts_for searcher "LOẠI THUỐC" types
  let alts_ind := alts_for searcher "CHỈ ĐỊNH" inds
  let alts_ingre := alts_for searcher "THÀNH PHẦN" ingres
  let s1 := alts_type.foldl (scoreStep medicine_id) []
  let s2 := alts_ind.foldl (scoreStep medicine_id) s1
  alts_ingre.foldl (scoreStep medicine_id) s2

/-- The concatenation of the three `alts_*` candidate lists, in the
order the scoring loops traverse them. -/
def altsAll (searcher : GraphSearcher) (medicine_id : String) : List Med :=
  alts_for searcher "LOẠI THUỐC" (searcher.find_relations medicine_id "LOẠI THUỐC" .out)
  ++ alts_for searcher "CHỈ ĐỊNH" (searcher.find_relations medicine_id "CHỈ ĐỊNH" .out)
  ++ alts_for searcher "THÀNH PHẦN" (searcher.find_relations medicine_id "THÀNH PHẦN" .out)

/-- How many shared related nodes (over all three relation categories) a
candidate name has with the target medicine: the number of scoring-loop
iterations that bump that name. -/
def sharedCount (searcher : GraphSearcher) (medicine_id : String) (name : String) : Nat :=
  ((altsAll searcher medicine_id).filter (fun m => m.id != medicine_id && m.name == name)).length

/-- The score recorded for a name in a score list (`0` when absent). -/
def getScore : List ScoreEntry → String → Nat
  | [], _ => 0
  | e :: rest, n => if e.name = n then e.score else getScore rest n

/-- How many members of a candidate list bump a given name: those
distinct from the target and carrying the name. -/
def countIn (medicine_id : String) (ms : List Med) (n : String) : Nat :=
  (ms.filter (fun m => m.id != medicine_id && m.name == n)).length

/-- The sort order of `recs.sort(key=lambda x: -x["score"])`: descending
by score. -/
def raRel (a b : ScoreEntry) : Prop := b.score ≤ a.score

instance : DecidableRel raRel := fun a b => Nat.decLe b.score a.score

instance : IsTotal ScoreEntry raRel := ⟨fun a b => Nat.le_total b.score a.score⟩

instance : IsTrans ScoreEntry raRel :=
  ⟨fun _ _ _ h1 h2 => Nat.le_trans h2 h1⟩

/-- The `recs` list of `recommend_alternatives` after the stable
descending sort on score (Python `list.sort` is stable; a stable
insertion sort computes the same list). -/
def ra_recs (searcher : GraphSearcher) (medicine_id : String) : List ScoreEntry :=
  List.insertionSort raRel (ra_scoreList searcher medicine_id)

/-- The `result_match` formatting loop over `recs[:top_k]`; reading the
`short_description` field out of the JSON metadata (`json.loads`) is the
external oracle `json_short_description`. -/
def format_recs (json_short_description : String → String)
    (recs : List ScoreEntry) : String :=
  recs.foldl
    (fun acc rec =>
      acc ++ "Tên: " ++ rec.name ++ " " ++
      "Miêu tả ngắn: " ++ json_short_description rec.metadata ++ "\n")
    ""

/-- `recommend_alternatives`: resolve the keyword to the first matching
node (case-insensitive regex search), score and rank the sharing
neighbours, and format the top `top_k`.  `none` models the Python
`return []` taken when no candidate matches the keyword. -/
def recommend_alternatives (json_short_description : String → String)
    (keyword : String) (top_k : Nat) (searcher : GraphSearcher) : Option String :=
  match searcher.find_medicine_regex keyword true with
  | [] => none
  | medicine :: _ =>
    some (format_recs json_short_description ((ra_recs searcher medicine.id).take top_k))

/-! ### Concrete instantiations used by the counterexamples and
witnesses below -/

/-- A tool whose store lookup finds nothing: it returns the empty
string. -/
def empty_tool : ToolFn := fun _ => .ok ""

/-- A tool whose underlying store call raises. -/
def raising_tool : ToolFn := fun _ => .error "Neo4jError"

/-- A `json.loads` oracle; never consulted in the concrete runs below,
which avoid `recommend_by_indications`. -/
def no_json : JsonLoads := fun _ => .error "JSONDecodeError"

/-- A four-line planner response, each line a well-formed step. -/
def c1_response : String :=
  "Tool: search_by_name | Query: a\nTool: search_by_name | Query: b\nTool: search_by_name | Query: c\nTool: search_by_name | Query: d"

/-- A language capability that answers every prompt with the four-step
plan text. -/
def c1_llm : String → String := fun _ => c1_response

/-- All four registered tools return empty results. -/
def c1_tools : ToolReg := mkTools empty_tool empty_tool empty_tool empty_tool

/-- The state produced by the Planner for the all-empty four-step run. -/
def c1_state0 : AgentState := planner_node c1_llm "Thuốc X dùng thế nào?" []

/-- The target medicine of the concrete alternative-recommendation
graph. -/
def medT : Med := ⟨"idT", "T", "mT"⟩

/-- A candidate sharing two type nodes and two indication nodes with
`medT`. -/
def medA : Med := ⟨"idA", "A", "mA"⟩

/-- A concrete graph store: `medT` has two types and two indications,
all four shared with `medA`, and no ingredients. -/
def cexSearcher : GraphSearcher where
  find_medicine_regex := fun kw _ => if kw = "T" then [medT] else []
  find_relations := fun id rel dir =>
    match dir with
    | .out =>
      if id = "idT" && rel = "LOẠI THUỐC" then [⟨"ty1", "loại một", "m1"⟩, ⟨"ty2", "loại hai", "m2"⟩]
      else if id = "idT" && rel = "CHỈ ĐỊNH" then [⟨"in1", "sốt", "m3"⟩, ⟨"in2", "đau đầu", "m4"⟩]
      else []
    | .inn =>
      if (id = "ty1" || id = "ty2") && rel = "LOẠI THUỐC" then [medT, medA]
      else if (id = "in1" || id = "in2") && rel = "CHỈ ĐỊNH" then [medT, medA]
      else []

/-- A capability that plans a single `search_by_name` step. -/
def c2_llm : String → String := fun _ => "Tool: search_by_name | Query: Panadol"

/-- A registry whose `search_by_name` raises from the store. -/
def c2_tools : ToolReg := mkTools raising_tool empty_tool empty_tool empty_tool

/-- A one-step state about to invoke the raising `search_by_name`. -/
def c2_state : AgentState :=
  ⟨"q", [], [⟨"search_by_name", "Panadol"⟩], [], 0, false, false, none⟩

/-- A `json.loads` oracle that decodes every query to `["sốt"]`. -/
def ok_json : JsonLoads := fun _ => .ok ["sốt"]

/-- A registry whose `recommend_by_indications` raises from the store. -/
def c2_ind_tools : ToolReg := mkTools empty_tool empty_tool empty_tool raising_tool

/-- A one-step state about to invoke the raising
`recommend_by_indications` (its query decodes successfully). -/
def c2_ind_state : AgentState :=
  ⟨"q", [], [⟨"recommend_by_indications", "[\"sốt\"]"⟩], [], 0, false, false, none⟩

/-- A capability that returns an empty planner response. -/
def c7_llm : String → String := fun _ => ""

/-- A capability whose every answer is the fixed text `"xin chào"`. -/
def c9_llm : String → String := fun _ => "xin chào"

/-- The turn outcome of running `c9_llm` on an empty memory: the
planner response parses to no step, so the summarizer output is also
`"xin chào"`. -/
def c9_result : RunResult :=
  ⟨"xin chào", [⟨"human", "Thuốc gì?"⟩, ⟨"ai", "xin chào"⟩]⟩

/-- A one-step state whose step names the unregistered tool `"viên"`. -/
def w_state : AgentState := ⟨"câu hỏi", [], [⟨"viên", "x"⟩], [], 0, false, false, none⟩

/-- The state after the Executor recovers the unknown-tool step of
`w_state`. -/
def w_state2 : AgentState :=
  ⟨"câu hỏi", [], [⟨"viên", "x"⟩], [⟨"viên", "x", not_found_msg "viên"⟩], 1, false, false, none⟩

/-- The two invariants of `TurnState` claimed by the spec: the results
buffer has exactly one entry per completed step, and the cursor never
exceeds the plan length. -/
def StateInv (s : AgentState) : Prop :=
  s.results.length = s.current_index ∧ s.current_index ≤ s.plan.length

instance (s : AgentState) : Decidable (StateInv s) := by
  unfold StateInv
  infer_instance

/-! ### Theorems: plan parsing in the Planner (C4, C8) -/

theorem foldl_append_filter {α β : Type _} (q : α → Bool) (f : α → β) :
    ∀ (l : List α) (acc : List β),
      l.foldl (fun acc2 x => if q x then acc2 ++ [f x] else acc2) acc
        = acc ++ (l.filter q).map f := by
  intro l
  induction l with
  | nil => intro acc; simp
  | cons x xs ih =>
    intro acc
    by_cases h : q x
    · simp [h, ih, List.filter_cons]
    · simp [h, ih, List.filter_cons]

theorem parse_plan_eq_filter_map (response : String) :
    parse_plan response = ((pySplit '\n' response).filter line_qualifies).map line_step := by
  have hbody : parse_plan response
      = (pySplit '\n' response).foldl
          (fun plan line => if line_qualifies line then plan ++ [line_step line] else plan)
          [] := rfl
  rw [hbody, foldl_append_filter line_qualifies line_step (pySplit '\n' response) []]
  simp

/-- C4: a line of the planner response contributes a plan step if and
only if it contains both the `Tool:` and the `Query:` marker — contrary
to the claim, no separating pipe is required; the contributed step is
always the one obtained by splitting on pipes, taking the first part
containing each marker (the whole line when there is no pipe), removing
the marker text and stripping whitespace; all other lines contribute
nothing, and the empty response yields the empty plan. -/
theorem planner_line_parsing (response : String) :
    parse_plan response = ((pySplit '\n' response).filter line_qualifies).map line_step
    ∧ (∀ line, line_qualifies line = (pyIn "Tool:" line && pyIn "Query:" line))
    ∧ parse_plan "" = [] :=
  ⟨parse_plan_eq_filter_map response, fun _ => rfl, by decide⟩

/-- C4 counterexample: a line holding both markers but no pipe at all
still contributes a plan step (with garbled fields), refuting the
claimed "separated by a pipe" condition. -/
theorem plan_step_without_pipe :
    pyIn "|" "Tool: search_by_name Query: Panadol" = false
    ∧ parse_plan "Tool: search_by_name Query: Panadol" =
        [⟨"search_by_name Query: Panadol", "Tool: search_by_name  Panadol"⟩] := by
  exact ⟨by decide, by decide⟩

/-- C8: the Planner enforces no cap on the plan length by parsing: the
plan contains exactly one step per qualifying line of the response, so a
response with more than 2 qualifying lines yields more than 2 steps
(the "at most 2 tools" rule lives only in the prompt text). -/
theorem plan_length_unbounded (response : String) :
    (parse_plan response).length
      = ((pySplit '\n' response).filter line_qualifies).length := by
  rw [parse_plan_eq_filter_map response, List.length_map]

/-- C8 counterexample: a three-line response produces a plan of length
3, violating the claimed bound of 2 steps per question. -/
theorem plan_length_exceeds_two :
    2 < (parse_plan "Tool: search_by_name | Query: a\nTool: search_by_name | Query: b\nTool: search_by_name | Query: c").length := by
  decide

/-! ### Theorems: the Executor and the control loop
(C1, C2, C5, C6, C7, C9) -/

theorem executor_finish_results (s : AgentState) (t q r : String) :
    (executor_finish s t q r).results = s.results ++ [⟨t, q, r⟩] := rfl

theorem executor_finish_index (s : AgentState) (t q r : String) :
    (executor_finish s t q r).current_index = s.current_index + 1 := rfl

theorem executor_finish_plan (s : AgentState) (t q r : String) :
    (executor_finish s t q r).plan = s.plan := rfl

theorem executor_node_done (jl : JsonLoads) (tools : ToolReg) (s : AgentState)
    (hle : s.plan.length ≤ s.current_index) :
    executor_node jl tools s = .ok { s with done := true } := by
  unfold executor_node
  rw [if_pos hle]

theorem executor_node_none (jl : JsonLoads) (tools : ToolReg) (s : AgentState)
    (hlt : s.current_index < s.plan.length)
    (hreg : tools (s.plan.getD s.current_index ⟨"", ""⟩).tool = none) :
    executor_node jl tools s
      = .ok (executor_finish s (s.plan.getD s.current_index ⟨"", ""⟩).tool
          (s.plan.getD s.current_index ⟨"", ""⟩).query
          (not_found_msg (s.plan.getD s.current_index ⟨"", ""⟩).tool)) := by
  unfold executor_node
  rw [if_neg (by omega)]
  simp only [hreg]

theorem executor_node_raise (jl : JsonLoads) (tools : ToolReg) (s : AgentState)
    (e : String) (t : ToolFn)
    (hlt : s.current_index < s.plan.length)
    (hreg : tools (s.plan.getD s.current_index ⟨"", ""⟩).tool = some t)
    (hnotind : (s.plan.getD s.current_index ⟨"", ""⟩).tool ≠ "recommend_by_indications")
    (hraise : t (.str (s.plan.getD s.current_index ⟨"", ""⟩).query) = .error e) :
    executor_node jl tools s = .error e := by
  unfold executor_node
  rw [if_neg (by omega)]
  simp only [hreg, hnotind, if_false, hraise]

theorem executor_node_some_ok (jl : JsonLoads) (tools : ToolReg) (s : AgentState)
    (t : ToolFn) (r : String)
    (hlt : s.current_index < s.plan.length)
    (hreg : tools (s.plan.getD s.current_index ⟨"", ""⟩).tool = some t)
    (hok : (if (s.plan.getD s.current_index ⟨"", ""⟩).tool = "recommend_by_indications" then
        (jl (s.plan.getD s.current_index ⟨"", ""⟩).query).bind (fun inds => t (.list inds))
      else t (.str (s.plan.getD s.current_index ⟨"", ""⟩).query)) = .ok r) :
    executor_node jl tools s
      = .ok (executor_finish s (s.plan.getD s.current_index ⟨"", ""⟩).tool
          (s.plan.getD s.current_index ⟨"", ""⟩).query r) := by
  unfold executor_node
  rw [if_neg (by omega)]
  simp only [hreg, hok]

theorem executor_node_some_err (jl : JsonLoads) (tools : ToolReg) (s : AgentState)
    (t : ToolFn) (e : String)
    (hlt : s.current_index < s.plan.length)
    (hreg : tools (s.plan.getD s.current_index ⟨"", ""⟩).tool = some t)
    (herr : (if (s.plan.getD s.current_index ⟨"", ""⟩).tool = "recommend_by_indications" then
        (jl (s.plan.getD s.current_index ⟨"", ""⟩).query).bind (fun inds => t (.list inds))
      else t (.str (s.plan.getD s.current_index ⟨"", ""⟩).query)) = .error e) :
    executor_node jl tools s = .error e := by
  unfold executor_node
  rw [if_neg (by omega)]
  simp only [hreg, herr]

theorem executor_node_ok_cases (jl : JsonLoads) (tools : ToolReg) (s s' : AgentState)
    (h : executor_node jl tools s = .ok s') :
    (s.plan.length ≤ s.current_index ∧ s' = { s with done := true })
    ∨ (s.current_index < s.plan.length ∧ ∃ t q r, s' = executor_finish s t q r) := by
  by_cases hle : s.plan.length ≤ s.current_index
  · rw [executor_node_done jl tools s hle] at h
    injection h with h2
    exact Or.inl ⟨hle, h2.symm⟩
  · right
    refine ⟨by omega, ?_⟩
    cases hreg : tools (s.plan.getD s.current_index ⟨"", ""⟩).tool with
    | none =>
      rw [executor_node_none jl tools s (by omega) hreg] at h
      injection h with h2
      exact ⟨_, _, _, h2.symm⟩
    | some t =>
      cases hcall : (if (s.plan.getD s.current_index ⟨"", ""⟩).tool = "recommend_by_indications" then
          (jl (s.plan.getD s.current_index ⟨"", ""⟩).query).bind (fun inds => t (.list inds))
        else t (.str (s.plan.getD s.current_index ⟨"", ""⟩).query)) with
      | error e =>
        rw [executor_node_some_err jl tools s t e (by omega) hreg hcall] at h
        exact absurd h (by simp)
      | ok r =>
        rw [executor_node_some_ok jl tools s t r (by omega) hreg hcall] at h
        injection h with h2
        exact ⟨_, _, _, h2.symm⟩

theorem executor_node_inv (jl : JsonLoads) (tools : ToolReg) (s s' : AgentState)
    (h : executor_node jl tools s = .ok s') (hinv : StateInv s) : StateInv s' := by
  rcases executor_node_ok_cases jl tools s s' h with ⟨_, rfl⟩ | ⟨hlt, t, q, r, rfl⟩
  · exact hinv
  · refine ⟨?_, ?_⟩
    · rw [executor_finish_results, executor_finish_index, List.length_append, hinv.1]
      rfl
    · rw [executor_finish_index, executor_finish_plan]
      omega

theorem executor_node_mono (jl : JsonLoads) (tools : ToolReg) (s s' : AgentState)
    (h : executor_node jl tools s = .ok s') :
    s.current_index ≤ s'.current_index ∧ s'.plan = s.plan := by
  rcases executor_node_ok_cases jl tools s s' h with ⟨_, rfl⟩ | ⟨hlt, t, q, r, rfl⟩
  · exact ⟨Nat.le_refl _, rfl⟩
  · exact ⟨by rw [executor_finish_index]; omega, executor_finish_plan s t q r⟩

theorem loopN_ok_inv (jl : JsonLoads) (tools : ToolReg) :
    ∀ (fuel : Nat) (s s' : AgentState), loopN jl tools fuel s = .ok s' →
      StateInv s → StateInv s' := by
  intro fuel
  induction fuel with
  | zero =>
    intro s s' h hinv
    injection h with h2
    rwa [← h2]
  | succ n ih =>
    intro s s' h hinv
    unfold loopN at h
    by_cases hc : should_continue s
    · rw [if_pos hc] at h
      cases hex : executor_node jl tools s with
      | error e => rw [hex] at h; exact absurd h (by simp)
      | ok s2 =>
        rw [hex] at h
        exact ih s2 s' h (executor_node_inv jl tools s s2 hex hinv)
    · rw [if_neg hc] at h
      injection h with h2
      rwa [← h2]

/-- C5: the turn-state invariants hold: the Planner establishes
`results.length = current_index ∧ current_index ≤ plan.length`, every
successful Executor step preserves it while leaving the plan unchanged
and never decreasing the cursor, and a whole successful graph run
preserves it into the final state. -/
theorem turn_state_invariants :
    (∀ (llm : String → String) (question : String) (hist : List Message),
        StateInv (planner_node llm question hist))
    ∧ (∀ (jl : JsonLoads) (tools : ToolReg) (s s' : AgentState),
        executor_node jl tools s = .ok s' → StateInv s →
          StateInv s' ∧ s.current_index ≤ s'.current_index ∧ s'.plan = s.plan)
    ∧ (∀ (jl : JsonLoads) (tools : ToolReg) (llm : String → String)
        (s0 : AgentState) (tr : TurnResult),
        run_graph jl tools llm s0 = .ok tr → StateInv s0 → StateInv tr.state) := by
  refine ⟨?_, ?_, ?_⟩
  · intro llm question hist
    exact ⟨rfl, Nat.zero_le _⟩
  · intro jl tools s s' h hinv
    exact ⟨executor_node_inv jl tools s s' h hinv,
      (executor_node_mono jl tools s s' h).1, (executor_node_mono jl tools s s' h).2⟩
  · intro jl tools llm s0 tr h hinv
    unfold run_graph at h
    cases hex : executor_node jl tools s0 with
    | error e => simp only [hex] at h; exact Except.noConfusion h
    | ok s1 =>
      simp only [hex] at h
      cases hl : loopN jl tools (s1.plan.length - s1.current_index) s1 with
      | error e => simp only [hl] at h; exact Except.noConfusion h
      | ok s2 =>
        simp only [hl] at h
        injection h with h2
        rw [← h2]
        exact loopN_ok_inv jl tools _ s1 s2 hl (executor_node_inv jl tools s0 s1 hex hinv)

/-- C5 witness: the invariants at a concrete one-step turn state. -/
theorem turn_state_invariants_witness :
    StateInv w_state2 ∧ w_state.current_index ≤ w_state2.current_index
      ∧ w_state2.plan = w_state.plan :=
  turn_state_invariants.2.1 no_json c1_tools w_state w_state2 (by decide) (by decide)

/-- C6: a plan step naming a tool outside the four registry keys never
makes the Executor raise: it appends the synthetic
`Tool ... không tồn tại.` result and advances the cursor by one. -/
theorem unknown_tool_recovered (jl : JsonLoads) (f1 f2 f3 f4 : ToolFn) (s : AgentState)
    (hlt : s.current_index < s.plan.length)
    (hname : (s.plan.getD s.current_index ⟨"", ""⟩).tool ∉ allowed_tools) :
    ∃ s', executor_node jl (mkTools f1 f2 f3 f4) s = .ok s'
      ∧ s'.results = s.results ++ [⟨(s.plan.getD s.current_index ⟨"", ""⟩).tool,
          (s.plan.getD s.current_index ⟨"", ""⟩).query,
          not_found_msg (s.plan.getD s.current_index ⟨"", ""⟩).tool⟩]
      ∧ s'.current_index = s.current_index + 1 := by
  have hreg : mkTools f1 f2 f3 f4 (s.plan.getD s.current_index ⟨"", ""⟩).tool = none := by
    simp only [allowed_tools, List.mem_cons, List.not_mem_nil, or_false, not_or] at hname
    obtain ⟨h1, h2, h3, h4⟩ := hname
    unfold mkTools
    rw [if_neg h1, if_neg h2, if_neg h3, if_neg h4]
  exact ⟨_, executor_node_none jl (mkTools f1 f2 f3 f4) s hlt hreg,
    executor_finish_results s _ _ _, executor_finish_index s _ _ _⟩

/-- C6 witness: the unregistered tool name `"viên"` is recovered as a
synthetic result at a concrete state. -/
theorem unknown_tool_recovered_witness :
    ∃ s', executor_node no_json (mkTools empty_tool empty_tool empty_tool empty_tool)
        w_state = .ok s'
      ∧ s'.results = w_state.results ++ [⟨(w_state.plan.getD w_state.current_index ⟨"", ""⟩).tool,
          (w_state.plan.getD w_state.current_index ⟨"", ""⟩).query,
          not_found_msg (w_state.plan.getD w_state.current_index ⟨"", ""⟩).tool⟩]
      ∧ s'.current_index = w_state.current_index + 1 :=
  unknown_tool_recovered no_json empty_tool empty_tool empty_tool empty_tool w_state
    (by decide) (by decide)

/-- C2 (amended): the Executor does not catch a tool exception — for
every registered tool, when its store call raises, the exception
propagates out of `_executor_node` unchanged, so the turn crashes; no
textual result is recorded and the cursor does not advance (contrast
with C6: only a registry miss is converted into a textual result).
The first conjunct covers the three tools called on the plain query
string; the second covers `recommend_by_indications`, called on the
decoded indication list after a successful `json.loads`. -/
theorem tool_exception_propagates :
    (∀ (jl : JsonLoads) (tools : ToolReg) (s : AgentState) (e : String) (t : ToolFn),
      s.current_index < s.plan.length →
      tools (s.plan.getD s.current_index ⟨"", ""⟩).tool = some t →
      (s.plan.getD s.current_index ⟨"", ""⟩).tool ≠ "recommend_by_indications" →
      t (.str (s.plan.getD s.current_index ⟨"", ""⟩).query) = .error e →
      executor_node jl tools s = .error e)
    ∧ (∀ (jl : JsonLoads) (tools : ToolReg) (s : AgentState) (e : String) (t : ToolFn)
        (inds : List String),
      s.current_index < s.plan.length →
      tools (s.plan.getD s.current_index ⟨"", ""⟩).tool = some t →
      (s.plan.getD s.current_index ⟨"", ""⟩).tool = "recommend_by_indications" →
      jl (s.plan.getD s.current_index ⟨"", ""⟩).query = .ok inds →
      t (.list inds) = .error e →
      executor_node jl tools s = .error e) := by
  constructor
  · intro jl tools s e t hlt hreg hnotind hraise
    exact executor_node_raise jl tools s e t hlt hreg hnotind hraise
  · intro jl tools s e t inds hlt hreg hind hjson hraise
    refine executor_node_some_err jl tools s t e hlt hreg ?_
    rw [if_pos hind, hjson]
    exact hraise

/-- C2 counterexample: with a store-raising `search_by_name`, the whole
turn aborts with the raised error — nothing is caught, no textual
failure result is recorded, refuting the claimed recovery. -/
theorem tool_exception_crashes_turn :
    run no_json c2_tools c2_llm [] "Thuốc Panadol giá bao nhiêu?" = .error "Neo4jError" := by
  decide

/-- C2 witness: the propagation theorem applied at a concrete raising
`search_by_name` and at a concrete raising `recommend_by_indications`
whose query decodes successfully. -/
theorem tool_exception_propagates_witness :
    executor_node no_json c2_tools c2_state = .error "Neo4jError"
    ∧ executor_node ok_json c2_ind_tools c2_ind_state = .error "Neo4jError" :=
  ⟨tool_exception_propagates.1 no_json c2_tools c2_state "Neo4jError" raising_tool
      (by decide) rfl (by decide) rfl,
    tool_exception_propagates.2 ok_json c2_ind_tools c2_ind_state "Neo4jError" raising_tool
      ["sốt"] (by decide) rfl rfl rfl rfl⟩

/-- C7: when the Planner yields an empty plan the Executor performs no
tool call — the run does not depend on the tool registry or the JSON
decoder at all — and control still reaches the Summarizer, which runs
exactly once over an empty results buffer. -/
theorem empty_plan_reaches_summarizer (jl jl' : JsonLoads) (tools tools' : ToolReg)
    (llm : String → String) (question : String) (hist : List Message)
    (hplan : (planner_node llm question hist).plan = []) :
    run_graph jl tools llm (planner_node llm question hist)
      = run_graph jl' tools' llm (planner_node llm question hist)
    ∧ ∃ tr, run_graph jl tools llm (planner_node llm question hist) = .ok tr
        ∧ tr.state.results = [] ∧ tr.summarizer_calls = 1 := by
  have hle : (planner_node llm question hist).plan.length
      ≤ (planner_node llm question hist).current_index := by
    rw [hplan]
    exact Nat.zero_le _
  have hfuel : ({ planner_node llm question hist with done := true } : AgentState).plan.length
      - ({ planner_node llm question hist with done := true } : AgentState).current_index
      = 0 := by
    show (planner_node llm question hist).plan.length
      - (planner_node llm question hist).current_index = 0
    omega
  have hrun : ∀ (j : JsonLoads) (ts : ToolReg),
      run_graph j ts llm (planner_node llm question hist)
        = .ok ⟨summarizer_node llm { planner_node llm question hist with done := true }, 1⟩ := by
    intro j ts
    unfold run_graph
    rw [executor_node_done j ts (planner_node llm question hist) hle]
    simp only [hfuel, loopN]
  exact ⟨(hrun jl tools).trans (hrun jl' tools').symm,
    ⟨_, hrun jl tools, rfl, rfl⟩⟩

/-- C7 witness: the empty planner response at a concrete question. -/
theorem empty_plan_reaches_summarizer_witness :
    run_graph no_json c1_tools c7_llm (planner_node c7_llm "Xin chào" [])
      = run_graph no_json c2_tools c7_llm (planner_node c7_llm "Xin chào" [])
    ∧ ∃ tr, run_graph no_json c1_tools c7_llm (planner_node c7_llm "Xin chào" []) = .ok tr
        ∧ tr.state.results = [] ∧ tr.summarizer_calls = 1 :=
  empty_plan_reaches_summarizer no_json no_json c1_tools c2_tools c7_llm "Xin chào" []
    (by decide)

/-- C1 (code evaluation at the claimed scenario): with a four-step plan
whose first three tool results are all empty, the turn does stop
executing after the third step (`current_index` ends at 3 with
`force_end` set), but — contrary to the claim and to the spec — the
Summarizer still runs exactly once, and the final answer is the
output of the Summarizer (here the constant capability text), not the fixed
fallback string. -/
theorem forced_stop_still_summarizes :
    (run_graph no_json c1_tools c1_llm c1_state0).map
        (fun tr => (tr.summarizer_calls, tr.state.current_index, tr.state.force_end,
          tr.state.final_answer))
      = .ok (1, 3, true, some c1_response)
    ∧ c1_response ≠ fallback_answer :=
  ⟨by decide, by decide⟩

/-- C9: the string returned by `run` is exactly the assistant message
appended to memory for the turn, and a final state carrying no
`final_answer` yields the fixed default `"Không có kết quả."` as both. -/
theorem run_returns_appended_answer :
    (∀ (memory1 : List Message) (rs : AgentState),
        (finalize memory1 rs).memory = memory1 ++ [⟨"ai", (finalize memory1 rs).answer⟩]
        ∧ (rs.final_answer = none → (finalize memory1 rs).answer = "Không có kết quả."))
    ∧ (∀ (jl : JsonLoads) (tools : ToolReg) (llm : String → String)
        (memory : List Message) (question : String) (r : RunResult),
        run jl tools llm memory question = .ok r →
          r.memory = (memory ++ [⟨"human", question⟩]) ++ [⟨"ai", r.answer⟩]) := by
  constructor
  · intro memory1 rs
    refine ⟨rfl, ?_⟩
    intro hnone
    show rs.final_answer.getD "Không có kết quả." = "Không có kết quả."
    rw [hnone]
    rfl
  · intro jl tools llm memory question r h
    unfold run at h
    cases hrg : run_graph jl tools llm
        (planner_node llm question (memory ++ [⟨"human", question⟩])) with
    | error e => simp only [hrg, Except.map] at h; exact Except.noConfusion h
    | ok tr =>
      simp only [hrg, Except.map] at h
      injection h with h2
      rw [← h2]
      rfl

/-- C9 witness: a concrete completed turn returns exactly the appended
assistant message. -/
theorem run_returns_appended_answer_witness :
    c9_result.memory = ([] ++ [⟨"human", "Thuốc gì?"⟩]) ++ [⟨"ai", c9_result.answer⟩] :=
  run_returns_appended_answer.2 no_json c1_tools c9_llm [] "Thuốc gì?" c9_result (by decide)

/-! ### Theorems: `recommend_alternatives` scoring (C3, C10) -/

theorem bump_getScore (m : Med) (acc : List ScoreEntry) (n : String) :
    getScore (bumpScore m acc) n
      = if n = m.name then getScore acc n + 1 else getScore acc n := by
  induction acc with
  | nil =>
    by_cases hn : n = m.name
    · simp [bumpScore, getScore, hn]
    · simp [bumpScore, getScore, hn, Ne.symm hn]
  | cons e rest ih =>
    by_cases he : e.name = m.name
    · simp only [bumpScore, if_pos he, getScore]
      by_cases hen : e.name = n
      · have hn : n = m.name := hen.symm.trans he
        simp [hen, hn]
      · have hn : n ≠ m.name := fun hh => hen (he.trans hh.symm)
        simp [hen, hn]
    · simp only [bumpScore, if_neg he, getScore]
      by_cases hen : e.name = n
      · have hn : n ≠ m.name := fun hh => he (hen.trans hh)
        simp [hen, hn]
      · simp [hen, ih]

theorem bump_names (m : Med) (acc : List ScoreEntry) :
    (bumpScore m acc).map ScoreEntry.name
      = if m.name ∈ acc.map ScoreEntry.name then acc.map ScoreEntry.name
        else acc.map ScoreEntry.name ++ [m.name] := by
  induction acc with
  | nil => simp [bumpScore]
  | cons e rest ih =>
    by_cases he : e.name = m.name
    · simp [bumpScore, he]
    · simp only [bumpScore, if_neg he, List.map_cons, ih]
      by_cases hm : m.name ∈ rest.map ScoreEntry.name
      · simp [hm, Ne.symm he]
      · simp [hm, Ne.symm he]

theorem bump_nodup (m : Med) (acc : List ScoreEntry)
    (h : (acc.map ScoreEntry.name).Nodup) :
    ((bumpScore m acc).map ScoreEntry.name).Nodup := by
  rw [bump_names]
  by_cases hm : m.name ∈ acc.map ScoreEntry.name
  · rwa [if_pos hm]
  · rw [if_neg hm]
    simp [List.nodup_append, h, hm]

theorem getScore_of_mem (l : List ScoreEntry)
    (hnd : (l.map ScoreEntry.name).Nodup)
    (e : ScoreEntry) (he : e ∈ l) : getScore l e.name = e.score := by
  induction l with
  | nil => cases he
  | cons x rest ih =>
    rw [List.map_cons, List.nodup_cons] at hnd
    rcases List.mem_cons.mp he with rfl | hmem
    · simp [getScore]
    · have hx : x.name ≠ e.name := by
        intro hh
        exact hnd.1 (hh ▸ List.mem_map_of_mem ScoreEntry.name hmem)
      rw [getScore, if_neg hx]
      exact ih hnd.2 hmem

theorem mem_names_of_mem (l : List ScoreEntry) (e : ScoreEntry) (he : e ∈ l) :
    e.name ∈ l.map ScoreEntry.name := List.mem_map_of_mem ScoreEntry.name he

theorem scoreStep_getScore (mid : String) (acc : List ScoreEntry) (m : Med) (n : String) :
    getScore (scoreStep mid acc m) n
      = if (m.id != mid && m.name == n) = true then getScore acc n + 1
        else getScore acc n := by
  unfold scoreStep
  by_cases hid : m.id ≠ mid
  · rw [if_pos hid, bump_getScore]
    by_cases hn : n = m.name
    · rw [if_pos hn, if_pos]
      simp only [Bool.and_eq_true, bne_iff_ne, beq_iff_eq]
      exact ⟨hid, hn.symm⟩
    · rw [if_neg hn, if_neg]
      simp only [Bool.and_eq_true, bne_iff_ne, beq_iff_eq, not_and]
      intro _ hcontra
      exact hn hcontra.symm
  · rw [if_neg hid, if_neg]
    simp only [Bool.and_eq_true, bne_iff_ne]
    push_neg at hid
    rintro ⟨hcontra, -⟩
    exact hcontra hid

theorem foldl_scoreStep_getScore (mid : String) :
    ∀ (ms : List Med) (acc : List ScoreEntry) (n : String),
      getScore (ms.foldl (scoreStep mid) acc) n = getScore acc n + countIn mid ms n := by
  intro ms
  induction ms with
  | nil => intro acc n; simp [countIn]
  | cons m rest ih =>
    intro acc n
    rw [List.foldl_cons, ih (scoreStep mid acc m) n, scoreStep_getScore]
    simp only [countIn, List.filter_cons]
    by_cases hm : (m.id != mid && m.name == n) = true
    · simp only [hm, if_true, List.length_cons]
      omega
    · simp [hm]

theorem scoreStep_names_mem (mid : String) (acc : List ScoreEntry) (m : Med) (n : String) :
    (n ∈ (scoreStep mid acc m).map ScoreEntry.name)
      ↔ (n ∈ acc.map ScoreEntry.name ∨ (m.id != mid && m.name == n) = true) := by
  unfold scoreStep
  by_cases hid : m.id ≠ mid
  · rw [if_pos hid, bump_names]
    by_cases hmem : m.name ∈ acc.map ScoreEntry.name
    · rw [if_pos hmem]
      constructor
      · exact Or.inl
      · rintro (h | h)
        · exact h
        · simp only [Bool.and_eq_true, beq_iff_eq] at h
          exact h.2 ▸ hmem
    · rw [if_neg hmem, List.mem_append, List.mem_singleton]
      constructor
      · rintro (h | h)
        · exact Or.inl h
        · right
          simp only [Bool.and_eq_true, bne_iff_ne, beq_iff_eq]
          exact ⟨hid, h.symm⟩
      · rintro (h | h)
        · exact Or.inl h
        · simp only [Bool.and_eq_true, bne_iff_ne, beq_iff_eq] at h
          exact Or.inr h.2.symm
  · rw [if_neg hid]
    constructor
    · exact Or.inl
    · rintro (h | h)
      · exact h
      · simp only [Bool.and_eq_true, bne_iff_ne] at h
        push_neg at hid
        exact absurd hid h.1

theorem foldl_scoreStep_names (mid : String) :
    ∀ (ms : List Med) (acc : List ScoreEntry) (n : String),
      (n ∈ ((ms.foldl (scoreStep mid) acc).map ScoreEntry.name))
        ↔ (n ∈ acc.map ScoreEntry.name ∨ 0 < countIn mid ms n) := by
  intro ms
  induction ms with
  | nil => intro acc n; simp [countIn]
  | cons m rest ih =>
    intro acc n
    rw [List.foldl_cons, ih (scoreStep mid acc m) n, scoreStep_names_mem]
    simp only [countIn, List.filter_cons]
    by_cases hm : (m.id != mid && m.name == n) = true
    · simp [hm, Nat.zero_lt_succ]
    · simp only [hm, if_false]
      tauto

theorem scoreStep_nodup (mid : String) (acc : List ScoreEntry) (m : Med)
    (h : (acc.map ScoreEntry.name).Nodup) :
    ((scoreStep mid acc m).map ScoreEntry.name).Nodup := by
  unfold scoreStep
  split
  · exact bump_nodup m acc h
  · exact h

theorem foldl_scoreStep_nodup (mid : String) :
    ∀ (ms : List Med) (acc : List ScoreEntry),
      (acc.map ScoreEntry.name).Nodup →
      (((ms.foldl (scoreStep mid) acc)).map ScoreEntry.name).Nodup := by
  intro ms
  induction ms with
  | nil => intro acc h; exact h
  | cons m rest ih =>
    intro acc h
    rw [List.foldl_cons]
    exact ih _ (scoreStep_nodup mid acc m h)

theorem ra_scoreList_eq (searcher : GraphSearcher) (medicine_id : String) :
    ra_scoreList searcher medicine_id
      = (altsAll searcher medicine_id).foldl (scoreStep medicine_id) [] := by
  unfold ra_scoreList altsAll
  rw [List.foldl_append, List.foldl_append]

theorem sharedCount_eq_countIn (searcher : GraphSearcher) (medicine_id n : String) :
    sharedCount searcher medicine_id n
      = countIn medicine_id (altsAll searcher medicine_id) n := rfl

theorem ra_scoreList_spec (searcher : GraphSearcher) (medicine_id : String) :
    (∀ e ∈ ra_scoreList searcher medicine_id,
        e.score = sharedCount searcher medicine_id e.name ∧ 0 < e.score)
    ∧ (∀ n, (∃ e ∈ ra_scoreList searcher medicine_id, e.name = n)
        ↔ 0 < sharedCount searcher medicine_id n) := by
  have hnd : ((ra_scoreList searcher medicine_id).map ScoreEntry.name).Nodup := by
    rw [ra_scoreList_eq]
    exact foldl_scoreStep_nodup medicine_id _ [] List.nodup_nil
  have hget : ∀ n, getScore (ra_scoreList searcher medicine_id) n
      = sharedCount searcher medicine_id n := by
    intro n
    rw [ra_scoreList_eq, foldl_scoreStep_getScore, sharedCount_eq_countIn]
    simp [getScore]
  have hmemn : ∀ n, (n ∈ (ra_scoreList searcher medicine_id).map ScoreEntry.name)
      ↔ 0 < sharedCount searcher medicine_id n := by
    intro n
    rw [ra_scoreList_eq, foldl_scoreStep_names, sharedCount_eq_countIn]
    simp
  constructor
  · intro e he
    have hsc : e.score = sharedCount searcher medicine_id e.name := by
      rw [← hget e.name, getScore_of_mem _ hnd e he]
    refine ⟨hsc, ?_⟩
    rw [hsc]
    exact (hmemn e.name).mp (mem_names_of_mem _ e he)
  · intro n
    constructor
    · rintro ⟨e, he, rfl⟩
      exact (hmemn e.name).mp (mem_names_of_mem _ e he)
    · intro hpos
      obtain ⟨e, he, hn⟩ := List.exists_of_mem_map ((hmemn n).mpr hpos)
      exact ⟨e, he, hn⟩

/-- C3 (amended): in `recommend_alternatives` the score of every candidate
equals the number of shared related nodes with the target, counted over
all three relation categories with one point per shared node — so a
candidate sharing several type nodes, indication nodes or ingredient
nodes scores above 3, and the score is not the number of shared
categories; candidates are ranked by score descending (stable), so a
strictly higher-scoring candidate ranks strictly above; a candidate
sharing no related node never appears in the scored list. -/
theorem ra_scoring_shared_node_count (searcher : GraphSearcher) (medicine_id : String) :
    List.Sorted raRel (ra_recs searcher medicine_id)
    ∧ (∀ e ∈ ra_recs searcher medicine_id,
        e.score = sharedCount searcher medicine_id e.name ∧ 0 < e.score)
    ∧ (∀ n, (∃ e ∈ ra_recs searcher medicine_id, e.name = n)
        ↔ 0 < sharedCount searcher medicine_id n) := by
  have hperm := List.perm_insertionSort raRel (ra_scoreList searcher medicine_id)
  refine ⟨List.sorted_insertionSort raRel _, ?_, ?_⟩
  · intro e he
    exact (ra_scoreList_spec searcher medicine_id).1 e (hperm.mem_iff.mp he)
  · intro n
    rw [← (ra_scoreList_spec searcher medicine_id).2 n]
    constructor
    · rintro ⟨e, he, hn⟩
      exact ⟨e, hperm.mem_iff.mp he, hn⟩
    · rintro ⟨e, he, hn⟩
      exact ⟨e, hperm.mem_iff.mpr he, hn⟩

/-- C3 counterexample: in the concrete graph `cexSearcher` the single
candidate shares exactly two relation categories (type and indication)
with the target but scores 4 — one point per shared node — so scores
are not the 0–3 count of shared categories. -/
theorem ra_score_exceeds_category_bound :
    ra_recs cexSearcher "idT" = [⟨"A", 4, "mA"⟩]
    ∧ ¬ (∀ e ∈ ra_recs cexSearcher "idT", e.score ≤ 3) :=
  ⟨by decide, by decide⟩

/-- C3 witness: the scoring theorem applied at the concrete graph. -/
theorem ra_scoring_shared_node_count_witness :
    (⟨"A", 4, "mA"⟩ : ScoreEntry).score = sharedCount cexSearcher "idT" "A"
    ∧ 0 < (⟨"A", 4, "mA"⟩ : ScoreEntry).score :=
  (ra_scoring_shared_node_count cexSearcher "idT").2.1 ⟨"A", 4, "mA"⟩ (by decide)

/-- C10: whenever the keyword resolves to a target medicine, every
scored (hence every returned) candidate entry originates from a related
node whose id differs from the id of the resolved target — the target itself
is skipped by the `m["id"] != medicine_id` guard and never appears. -/
theorem ra_excludes_target (searcher : GraphSearcher) (keyword : String)
    (medicine : Med) (rest : List Med)
    (_hres : searcher.find_medicine_regex keyword true = medicine :: rest) :
    ∀ e ∈ ra_recs searcher medicine.id,
      ∃ m ∈ altsAll searcher medicine.id, m.name = e.name ∧ m.id ≠ medicine.id := by
  intro e he
  have hperm := List.perm_insertionSort raRel (ra_scoreList searcher medicine.id)
  have hspec := (ra_scoreList_spec searcher medicine.id).1 e (hperm.mem_iff.mp he)
  have hpos : 0 < sharedCount searcher medicine.id e.name := by
    rw [← hspec.1]
    exact hspec.2
  unfold sharedCount at hpos
  obtain ⟨m, hm⟩ := List.exists_mem_of_ne_nil _ (List.length_pos.mp hpos)
  have hmf := List.mem_filter.mp hm
  have hcond := hmf.2
  simp only [Bool.and_eq_true, bne_iff_ne, beq_iff_eq] at hcond
  exact ⟨m, hmf.1, hcond.2, hcond.1⟩

/-- C10 witness: the exclusion theorem applied at the concrete graph. -/
theorem ra_excludes_target_witness :
    ∃ m ∈ altsAll cexSearcher medT.id,
      m.name = (⟨"A", 4, "mA"⟩ : ScoreEntry).name ∧ m.id ≠ medT.id :=
  ra_excludes_target cexSearcher "T" medT [] (by decide) ⟨"A", 4, "mA"⟩ (by decide)

end MedicineAgent


